import Mathlib

/-!
Verification development for the EasyOpenData geospatial service.

The backend stores building geometries in a PostGIS table and serves them
through spatial-intersection queries (`backend/main.py`,
`backend/db/init.sql`, `backend/db/index.sql`); the frontend computes a
price from the drawn polygon area (`frontend/src/FloatingPanel.tsx`) and
renders either a checkout form or a free-download button
(`frontend/src/CheckoutForm.tsx`).

Geometries are embedded shallowly as finite unions of closed axis-aligned
boxes with rational coordinates; the PostGIS `ST_Intersects` predicate is
embedded as the decidable pairwise box-overlap test, and we prove it agrees
with the point-set semantics (two geometries intersect iff they share at
least one point).
-/

namespace EasyOpenData

/-- A closed axis-aligned box with rational coordinates; the box is the set
of points `(x, y)` with `xmin ≤ x ≤ xmax` and `ymin ≤ y ≤ ymax`. -/
structure Box where
  xmin : ℚ
  xmax : ℚ
  ymin : ℚ
  ymax : ℚ
deriving DecidableEq, Repr

/-- A box is valid (non-degenerate as a point set) when its intervals are
nonempty. -/
def Box.valid (b : Box) : Prop := b.xmin ≤ b.xmax ∧ b.ymin ≤ b.ymax

instance (b : Box) : Decidable b.valid := by
  unfold Box.valid
  infer_instance

/-- Point membership in a closed box. -/
def Box.containsPt (b : Box) (p : ℚ × ℚ) : Prop :=
  b.xmin ≤ p.1 ∧ p.1 ≤ b.xmax ∧ b.ymin ≤ p.2 ∧ p.2 ≤ b.ymax

instance (b : Box) (p : ℚ × ℚ) : Decidable (b.containsPt p) := by
  unfold Box.containsPt
  infer_instance

/-- Decidable box-overlap test: the standard interval conditions checked by
a spatial index. -/
def Box.overlapsB (a b : Box) : Bool :=
  decide (a.xmin ≤ b.xmax ∧ b.xmin ≤ a.xmax ∧ a.ymin ≤ b.ymax ∧ b.ymin ≤ a.ymax)

/-- A (multi-part) geometry: a finite union of closed boxes. -/
abbrev MultiBoxGeom := List Box

/-- All parts of a geometry are valid boxes. -/
def geomValid (g : MultiBoxGeom) : Prop := ∀ b ∈ g, b.valid

instance (g : MultiBoxGeom) : Decidable (geomValid g) := by
  unfold geomValid
  infer_instance

/-- Shallow embedding of `ST_Intersects` on multi-box geometries: some part
of one geometry overlaps some part of the other. -/
def stIntersects (g1 g2 : MultiBoxGeom) : Bool :=
  g1.any (fun a => g2.any (fun b => a.overlapsB b))

/-- Point-set intersection semantics: the two geometries share at least one
point. -/
def sharesPoint (g1 g2 : MultiBoxGeom) : Prop :=
  ∃ p : ℚ × ℚ, (∃ a ∈ g1, a.containsPt p) ∧ (∃ b ∈ g2, b.containsPt p)

/-- A row of the `buildings` table (`backend/models.py`): integer primary
key `id`, optional `name`, geometry column `geom`. -/
structure Building where
  id : Nat
  name : Option String
  geom : MultiBoxGeom
deriving DecidableEq, Repr

/-- The Spatial Store's `intersecting(polygon)` query: the rows of the
store whose geometry satisfies `ST_Intersects` with the region, as in the
`WHERE ST_Intersects(Building.geom, geom)` clause of `backend/main.py`. -/
def intersecting (store : List Building) (region : MultiBoxGeom) : List Building :=
  store.filter (fun b => stIntersects b.geom region)

/- ### The GET /buildings/nuremberg endpoint (backend/main.py) -/

/-- A GeoJSON feature as built by `get_buildings_nuremberg`: its
`properties` object carries the building's `id` as its only key, so it is
embedded as the single field `prop_id`. -/
structure GeoFeature where
  geometry : MultiBoxGeom
  prop_id : Nat
deriving DecidableEq, Repr

/-- A GeoJSON FeatureCollection. -/
structure FeatureCollection where
  features : List GeoFeature
deriving DecidableEq, Repr

/-- The endpoint's observable outcome: a JSON FeatureCollection response,
or an `HTTPException(status_code=500, detail=str(e))`. -/
inductive NurembergResponse where
  | ok (fc : FeatureCollection)
  | httpError (status : Nat) (detail : String)
deriving DecidableEq, Repr

/-- The fixed Nürnberg bounding box of `backend/main.py`:
`POLYGON((11.0 49.4, 11.2 49.4, 11.2 49.6, 11.0 49.6, 11.0 49.4))`,
the axis-aligned rectangle `[11.0, 11.2] x [49.4, 49.6]` in SRID 4326. -/
def nurembergBbox : Box :=
  { xmin := 11, xmax := mkRat 56 5, ymin := mkRat 247 5, ymax := mkRat 248 5 }

/-- The fixed bbox as a geometry. -/
def nurembergGeom : MultiBoxGeom := [nurembergBbox]

/-- The feature constructed for one returned row: geometry plus a
properties object holding only the building's id. -/
def mkFeature (b : Building) : GeoFeature := { geometry := b.geom, prop_id := b.id }

/-- The FeatureCollection assembled from the query result. -/
def nurembergCollection (store : List Building) : FeatureCollection :=
  { features := (intersecting store nurembergGeom).map mkFeature }

/-- `GET /buildings/nuremberg` (`backend/main.py`): no region parameter is
taken from the caller; the query result is turned into a FeatureCollection,
and any exception raised during the query is surfaced as HTTP 500 with the
exception text as detail. The database interaction is embedded as an
`Except`: `.ok store` is a successful query over the table contents,
`.error e` an exception with text `e`. -/
def get_buildings_nuremberg (db : Except String (List Building)) : NurembergResponse :=
  match db with
  | .error e => .httpError 500 e
  | .ok store => .ok (nurembergCollection store)

/- ### The POST /retrieve_obj region extractor -/

/-- A downloadable mesh file: vertex/face data grouped per source
building, embedded as (building id, geometry) groups. -/
structure MeshFile where
  groups : List (Nat × MultiBoxGeom)
deriving DecidableEq, Repr

/-- The structured outcomes of the region-extraction HTTP contract. -/
inductive RetrieveObjResult where
  | invalidRegionError
  | emptyRegionError
  | meshFile (m : MeshFile)
  | internalError (detail : String)
deriving DecidableEq, Repr

/-- Modelled from the spec: input validation of the Region Extractor — the
`POST /retrieve_obj` handler (`backend/app/main.py`) is not under src/,
only its README declaration and its caller `frontend/src/App.tsx` are. A
region is well-formed when it is nonempty and all its parts are valid. -/
def validRegion (region : MultiBoxGeom) : Bool :=
  decide (region ≠ [] ∧ geomValid region)

/-- Modelled from the spec: the Region Extractor of `POST /retrieve_obj` —
the handler itself is not under src/. It validates the input polygon
(failing with `InvalidRegionError`), queries the Spatial Store's
`intersecting` operation, returns the structured `EmptyRegionError` result
when no building intersects, and otherwise assembles the intersecting
geometries into one mesh with a stable per-building group. -/
def retrieve_obj (store : List Building) (region : MultiBoxGeom) : RetrieveObjResult :=
  if validRegion region then
    if (intersecting store region).isEmpty then
      .emptyRegionError
    else
      .meshFile { groups := (intersecting store region).map (fun b => (b.id, b.geom)) }
  else
    .invalidRegionError

/- ### Ingestion: rows keyed by the external id `gml_id` -/

/-- A row of the ingested `building` table as produced by the GML loader:
stable external id `gml_id` (the column constrained by
`backend/db/index.sql`), geometry, free-form attributes. -/
structure FeatureRow where
  gml_id : String
  geom : MultiBoxGeom
  attrs : Option String
deriving DecidableEq, Repr

/-- The external ids of a table, in row order. -/
def gmlIds (t : List FeatureRow) : List String := t.map FeatureRow.gml_id

/-- Whether some row of the table carries the given external id. -/
def hasGmlId (t : List FeatureRow) (gid : String) : Bool :=
  t.any (fun r => r.gml_id == gid)

/-- The first row carrying the given external id, if any. -/
def lookupRow (t : List FeatureRow) (gid : String) : Option FeatureRow :=
  t.find? (fun r => r.gml_id == gid)

/-- Modelled from the spec: the Staging Loader merge step — the
`process_meta4.py` append-to-main-table step is not under src/, only the
`ogr2ogr`-invoking wrappers and the ingestion README are. Per the spec,
a feature whose external id already exists in the store updates that row
in place (geometry and attributes replaced); a feature with a new external
id is inserted. -/
def upsertOne (t : List FeatureRow) (f : FeatureRow) : List FeatureRow :=
  if hasGmlId t f.gml_id then
    t.map (fun r => if r.gml_id == f.gml_id then f else r)
  else
    t ++ [f]

/-- Modelled from the spec: ingesting one source file merges its features
into the store one by one. -/
def ingestFile (t : List FeatureRow) (file : List FeatureRow) : List FeatureRow :=
  file.foldl upsertOne t

/- ### The storage-layer unique constraint on gml_id -/

/-- A write statement against the `building` table; `insert`, geometry
update, external-id update and delete cover the loader/merge operations,
including buggy ones (an insert or id-update may try to create a
duplicate external id). -/
inductive StoreOp where
  | insert (r : FeatureRow)
  | updateGeom (gid : String) (g : MultiBoxGeom)
  | updateId (oldId newId : String)
  | delete (gid : String)
deriving DecidableEq, Repr

/-- The storage layer of `backend/db/index.sql`:
`ALTER TABLE public.building ADD CONSTRAINT gml_id_unique UNIQUE (gml_id)`.
Every write statement is checked against the constraint by the database
engine itself; a statement that would produce a duplicate `gml_id` is
rejected and leaves the table unchanged, regardless of what the
application layer intended. -/
def applyOp (t : List FeatureRow) : StoreOp → List FeatureRow
  | .insert r => if hasGmlId t r.gml_id then t else t ++ [r]
  | .updateGeom gid g =>
      t.map (fun r => if r.gml_id == gid then { r with geom := g } else r)
  | .updateId oldId newId =>
      if hasGmlId t newId then t
      else t.map (fun r => if r.gml_id == oldId then { r with gml_id := newId } else r)
  | .delete gid => t.filter (fun r => !(r.gml_id == gid))

/-- A whole sequence of write statements. -/
def applyOps (t : List FeatureRow) (ops : List StoreOp) : List FeatureRow :=
  ops.foldl applyOp t

/- ### The building table schema of init.sql -/

/-- A 2D point. -/
structure Point2 where
  x : ℚ
  y : ℚ
deriving DecidableEq, Repr

/-- A 3D point. -/
structure Point3 where
  x : ℚ
  y : ℚ
  z : ℚ
deriving DecidableEq, Repr

/-- A PostGIS geometry value as stored in a geometry column: a 2D polygon
(outer shell only, as relevant here) or a 3D multi-polygon (a list of
shells), each tagged with its SRID. -/
inductive SqlGeometry where
  | polygon2D (srid : Int) (shell : List Point2)
  | multiPolygonZ (srid : Int) (polys : List (List Point3))
deriving DecidableEq, Repr

/-- A row of init.sql's `building` table:
`ogc_fid SERIAL PRIMARY KEY, geom geometry(Polygon, 4326) NOT NULL,
other_columns TEXT`. The SQL value of `geom` is an `Option` so that the
NOT NULL constraint is part of the checked schema, not of the type. -/
structure BuildingRow where
  ogc_fid : Nat
  geom : Option SqlGeometry
  other_columns : Option String
deriving DecidableEq, Repr

/-- The declared column checks of `geometry(Polygon, 4326) NOT NULL`
(init.sql): the value must be a non-null 2D Polygon with SRID 4326.
PostGIS typmod checks cover only geometry type and SRID; they do not
check topological validity. -/
def geomTypmodOk : Option SqlGeometry → Bool
  | some (SqlGeometry.polygon2D srid _) => srid == 4326
  | _ => false

/-- A write to the `building` table: the database accepts the row when it
passes the declared column checks and rejects the statement otherwise. -/
def insertBuildingRow (t : List BuildingRow) (r : BuildingRow) : List BuildingRow :=
  if geomTypmodOk r.geom then t ++ [r] else t

/-- A sequence of writes to the `building` table. -/
def insertBuildingRows (t : List BuildingRow) (rs : List BuildingRow) : List BuildingRow :=
  rs.foldl insertBuildingRow t

/-- A closed linear ring: at least four points, first equal to last (the
basic OGC well-formedness condition, used as the validity abstraction). -/
def closedRing (ring : List Point3) : Bool :=
  decide (4 ≤ ring.length) && (ring.head? == ring.getLast?)

/-- Topological validity of a 3D multi-polygon, abstracted as: nonempty,
with every shell a closed ring. -/
def validMultiPolygonZ (polys : List (List Point3)) : Bool :=
  !polys.isEmpty && polys.all closedRing

/-- The property the spec asserts of every persisted geometry: a
topologically valid 3D multi-polygon in SRID 4326, or explicitly null. -/
def validOrNull (g : Option SqlGeometry) : Prop :=
  g = none ∨ ∃ polys, g = some (SqlGeometry.multiPolygonZ 4326 polys) ∧
    validMultiPolygonZ polys = true

/-- The self-intersecting bowtie shell: closed and well-typed, but not a
topologically valid polygon. -/
def bowtieShell : List Point2 :=
  [Point2.mk 0 0, Point2.mk 2 2, Point2.mk 2 0, Point2.mk 0 2, Point2.mk 0 0]

/-- A concrete row whose geometry passes the declared column checks of
init.sql. -/
def bowtieRow : BuildingRow :=
  { ogc_fid := 1, geom := some (SqlGeometry.polygon2D 4326 bowtieShell),
    other_columns := none }

/- ### The source fetcher retry policy -/

/-- The outcome of one download attempt of a SourceDescriptor. -/
inductive AttemptOutcome where
  | success
  | badHash
  | netFail
deriving DecidableEq, Repr

/-- The terminal result of fetching one descriptor. -/
inductive FetchResult where
  | fetched (attempt : Nat)
  | integrityError
  | transportError
deriving DecidableEq, Repr

/-- Modelled from the spec: the Source Fetcher retry loop (§4.1) — the
download code of `process_meta4.py` is not under src/, only the ingestion
README describing its download-and-verify workflow. Attempt outcomes are
an oracle indexed by attempt number; `netLeft` transport retries and
`hashLeft` integrity re-downloads remain. Each step performs one
download; per the spec a transient network failure is retried while
transport retries remain (`TransportError` once exhausted), and a hash
mismatch triggers a re-download while integrity retries remain
(`IntegrityError` once exhausted). Returns the result paired with the
total number of downloads performed. -/
def fetchAux (oracle : Nat → AttemptOutcome)
    (netLeft hashLeft i downloads : Nat) : FetchResult × Nat :=
  match oracle i, netLeft, hashLeft with
  | AttemptOutcome.success, _, _ => (FetchResult.fetched i, downloads + 1)
  | AttemptOutcome.netFail, 0, _ => (FetchResult.transportError, downloads + 1)
  | AttemptOutcome.netFail, netLeft' + 1, hl =>
    fetchAux oracle netLeft' hl (i + 1) (downloads + 1)
  | AttemptOutcome.badHash, _, 0 => (FetchResult.integrityError, downloads + 1)
  | AttemptOutcome.badHash, nl, hashLeft' + 1 =>
    fetchAux oracle nl hashLeft' (i + 1) (downloads + 1)
termination_by (netLeft, hashLeft)

/-- Modelled from the spec: fetching one descriptor with a configured
maximum of `maxAttempts` transport attempts (so `maxAttempts - 1`
transport retries) and exactly one integrity re-download. -/
def fetchDescriptor (oracle : Nat → AttemptOutcome) (maxAttempts : Nat) :
    FetchResult × Nat :=
  fetchAux oracle (maxAttempts - 1) 1 0 0

/- ### The geometry normalizer skip-and-count policy -/

/-- A raw building footprint as parsed from a source file: external id,
raw geometry (possibly invalid), free-form attributes. -/
structure RawFeature where
  ext_id : String
  rawGeom : MultiBoxGeom
  attrs : Option String
deriving DecidableEq, Repr

/-- The per-file result of normalization: the repaired features and the
count of features whose geometry could not be repaired. -/
structure NormalizeResult where
  features : List FeatureRow
  skippedCount : Nat
deriving DecidableEq, Repr

/-- One normalization step: keep the repaired feature, or count the skip. -/
def normalizeStep (repairFn : RawFeature → Option FeatureRow)
    (acc : NormalizeResult) (rf : RawFeature) : NormalizeResult :=
  match repairFn rf with
  | some f => { acc with features := acc.features ++ [f] }
  | none => { acc with skippedCount := acc.skippedCount + 1 }

/-- Modelled from the spec: the Geometry Normalizer (§4.2) — the
normalization code of `process_meta4.py` is not under src/ (the
`bayern.py` wrapper delegates per-feature failure handling to
`ogr2ogr -skipfailures`). The make-valid repair pass is a parameter
returning the repaired feature or nothing; a feature whose geometry
cannot be repaired is dropped and counted, and processing always
continues with the remaining features of the file. -/
def normalizeFile (repairFn : RawFeature → Option FeatureRow)
    (file : List RawFeature) : NormalizeResult :=
  file.foldl (normalizeStep repairFn) { features := [], skippedCount := 0 }

/- ### The tile builder bounding-volume invariant -/

/-- An axis-aligned 3D bounding volume. -/
structure Box3 where
  xmin : ℚ
  xmax : ℚ
  ymin : ℚ
  ymax : ℚ
  zmin : ℚ
  zmax : ℚ
deriving DecidableEq, Repr, Inhabited

/-- The smallest axis-aligned box containing both arguments. -/
def Box3.union (a b : Box3) : Box3 :=
  { xmin := min a.xmin b.xmin, xmax := max a.xmax b.xmax,
    ymin := min a.ymin b.ymin, ymax := max a.ymax b.ymax,
    zmin := min a.zmin b.zmin, zmax := max a.zmax b.zmax }

/-- `outer` fully encloses `inner`. -/
def enclosesB (outer inner : Box3) : Bool :=
  decide (outer.xmin ≤ inner.xmin ∧ inner.xmax ≤ outer.xmax ∧
          outer.ymin ≤ inner.ymin ∧ inner.ymax ≤ outer.ymax ∧
          outer.zmin ≤ inner.zmin ∧ inner.zmax ≤ outer.zmax)

/-- A node of the tileset tree: bounding volume, optional content extent
(null for purely structural nodes), children. -/
inductive TileNode where
  | node (volume : Box3) (contentExtent : Option Box3) (children : List TileNode)

/-- The bounding volume of a node. -/
def TileNode.volume : TileNode → Box3
  | TileNode.node v _ _ => v

mutual

/-- The recursive bounding-volume invariant: the node's volume encloses
its content extent (when present), and each child's volume and subtree. -/
def goodNode : TileNode → Bool
  | TileNode.node v c cs =>
    (match c with
     | none => true
     | some e => enclosesB v e) && goodChildren v cs

/-- Every node of the list is enclosed by `v` and recursively good. -/
def goodChildren (v : Box3) : List TileNode → Bool
  | [] => true
  | t :: ts => enclosesB v t.volume && goodNode t && goodChildren v ts

end

/-- The degenerate bounding box of one vertex. -/
def bboxPoint (p : Point3) : Box3 :=
  { xmin := p.x, xmax := p.x, ymin := p.y, ymax := p.y, zmin := p.z, zmax := p.z }

/-- The union of a list of boxes (an arbitrary default for the empty
list). -/
def unionAll : List Box3 → Box3
  | [] => default
  | b :: bs => bs.foldl Box3.union b

/-- Modelled from the spec: the external tiling tool applied to one batch
of building vertices, treated as a pure function computing the batch's
bounding volume (the union of its geometry extents) and a mesh payload
with that extent (§4.5, step 2). -/
def buildLeafNode (batch : List Point3) : TileNode :=
  TileNode.node (unionAll (batch.map bboxPoint))
    (some (unionAll (batch.map bboxPoint))) []

/-- Modelled from the spec: the Tile Builder merge step (§4.5) — the
`pg2b3dm`-plus-merge pipeline of `process_meta4.py` is not under src/,
only the README describing it and the frontend consumer `onTilesetLoad`.
Every batch's root node becomes a child of one synthetic root whose
bounding volume encloses all batch volumes and which has no content of
its own. -/
def buildTileset (batches : List (List Point3)) : TileNode :=
  TileNode.node (unionAll (batches.map (fun b => unionAll (b.map bboxPoint)))) none
    (batches.map buildLeafNode)

/- ### FloatingPanel pricing and checkout rendering -/

/-- The price threshold of `frontend/src/FloatingPanel.tsx`: drawn areas
below 0.05 km² are free (`mkRat 1 20` is the literal `0.05`). -/
def priceThreshold : ℚ := mkRat 1 20

/-- The pricing effect of `frontend/src/FloatingPanel.tsx`: when the
drawn polygon area (km²) is non-null, the price becomes 0 below the
threshold and `20 * area` euros otherwise; a null area leaves the
previous price unchanged. -/
def computePrice (polygonArea : Option ℚ) (prevPrice : ℚ) : ℚ :=
  match polygonArea with
  | none => prevPrice
  | some a => if a < priceThreshold then 0 else 20 * a

/-- What the checkout panel renders. -/
inductive CheckoutView where
  | freeDownloadButton
  | paymentForm (price : ℚ)
deriving DecidableEq, Repr

/-- `frontend/src/CheckoutForm.tsx`: `if (price === 0)` only the
free-download button is rendered (no payment form); otherwise the Stripe
payment form for that price. -/
def renderCheckout (price : ℚ) : CheckoutView :=
  if price = 0 then CheckoutView.freeDownloadButton
  else CheckoutView.paymentForm price

end EasyOpenData

namespace EasyOpenData

/- ### Overlap agrees with point-set intersection -/

theorem interval_overlap_point (a1 b1 a2 b2 : ℚ) (h1 : a1 ≤ b1) (h2 : a2 ≤ b2)
    (hov : a1 ≤ b2 ∧ a2 ≤ b1) :
    ∃ x : ℚ, a1 ≤ x ∧ x ≤ b1 ∧ a2 ≤ x ∧ x ≤ b2 := by
  refine ⟨max a1 a2, le_max_left _ _, ?_, le_max_right _ _, ?_⟩
  · exact max_le h1 hov.2
  · exact max_le hov.1 h2

theorem overlapsB_iff_common_point (a b : Box) (ha : a.valid) (hb : b.valid) :
    a.overlapsB b = true ↔ ∃ p : ℚ × ℚ, a.containsPt p ∧ b.containsPt p := by
  unfold Box.overlapsB
  rw [decide_eq_true_iff]
  constructor
  · rintro ⟨hx1, hx2, hy1, hy2⟩
    obtain ⟨x, hxa1, hxa2, hxb1, hxb2⟩ :=
      interval_overlap_point a.xmin a.xmax b.xmin b.xmax ha.1 hb.1 ⟨hx1, hx2⟩
    obtain ⟨y, hya1, hya2, hyb1, hyb2⟩ :=
      interval_overlap_point a.ymin a.ymax b.ymin b.ymax ha.2 hb.2 ⟨hy1, hy2⟩
    exact ⟨(x, y), ⟨hxa1, hxa2, hya1, hya2⟩, ⟨hxb1, hxb2, hyb1, hyb2⟩⟩
  · rintro ⟨p, ⟨hax1, hax2, hay1, hay2⟩, ⟨hbx1, hbx2, hby1, hby2⟩⟩
    exact ⟨le_trans hax1 hbx2, le_trans hbx1 hax2,
           le_trans hay1 hby2, le_trans hby1 hay2⟩

theorem stIntersects_iff_sharesPoint (g1 g2 : MultiBoxGeom)
    (h1 : geomValid g1) (h2 : geomValid g2) :
    stIntersects g1 g2 = true ↔ sharesPoint g1 g2 := by
  unfold stIntersects sharesPoint
  simp only [List.any_eq_true]
  constructor
  · rintro ⟨a, hag, b, hbg, hov⟩
    obtain ⟨p, hpa, hpb⟩ :=
      (overlapsB_iff_common_point a b (h1 a hag) (h2 b hbg)).mp hov
    exact ⟨p, ⟨a, hag, hpa⟩, ⟨b, hbg, hpb⟩⟩
  · rintro ⟨p, ⟨a, hag, hpa⟩, ⟨b, hbg, hpb⟩⟩
    exact ⟨a, hag, b, hbg,
      (overlapsB_iff_common_point a b (h1 a hag) (h2 b hbg)).mpr ⟨p, hpa, hpb⟩⟩

/-- Claim C1: for every valid input polygon `P` and every Building `B`
stored in the Spatial Store, `B` is returned by the store's
`intersecting(P)` query if and only if `B`'s geometry shares at least one
point with `P` (standard spatial-intersection semantics, as implemented by
the `ST_Intersects` predicate of the buildings query). -/
theorem intersecting_mem_iff_sharesPoint (store : List Building)
    (P : MultiBoxGeom) (B : Building) (hP : geomValid P)
    (hB : geomValid B.geom) (hmem : B ∈ store) :
    B ∈ intersecting store P ↔ sharesPoint B.geom P := by
  unfold intersecting
  rw [List.mem_filter]
  constructor
  · rintro ⟨-, hint⟩
    exact (stIntersects_iff_sharesPoint B.geom P hB hP).mp hint
  · intro hsh
    exact ⟨hmem, (stIntersects_iff_sharesPoint B.geom P hB hP).mpr hsh⟩

/-- The `mkRat` coordinates of `nurembergBbox` are exactly the decimal
literals of the WKT polygon in `backend/main.py`. -/
theorem nurembergBbox_literals :
    nurembergBbox.xmin = 11 ∧ nurembergBbox.xmax = 11.2 ∧
    nurembergBbox.ymin = 49.4 ∧ nurembergBbox.ymax = 49.6 := by
  refine ⟨rfl, ?_, ?_, ?_⟩ <;> norm_num [nurembergBbox]

/-- Claim C9: `GET /buildings/nuremberg` takes no region parameter from
the caller (the embedding takes only the database outcome); on success it
returns a FeatureCollection with exactly one feature per building
intersecting the fixed SRID-4326 bbox (membership characterisation plus
no-duplicate-features under distinct primary keys), each feature carrying
the building's id as its only property; any exception is surfaced as an
HTTP 500 whose detail is the exception text. -/
theorem get_buildings_nuremberg_contract :
    (∀ e, get_buildings_nuremberg (.error e) = .httpError 500 e) ∧
    (∀ store : List Building,
      get_buildings_nuremberg (.ok store) = .ok (nurembergCollection store) ∧
      (∀ f, f ∈ (nurembergCollection store).features ↔
        ∃ B, B ∈ store ∧ stIntersects B.geom nurembergGeom = true ∧ f = mkFeature B) ∧
      ((store.map Building.id).Nodup → (nurembergCollection store).features.Nodup)) := by
  refine ⟨fun e => rfl, fun store => ⟨rfl, ?_, ?_⟩⟩
  · intro f
    unfold nurembergCollection intersecting
    simp only [List.mem_map, List.mem_filter]
    constructor
    · rintro ⟨B, ⟨hmem, hint⟩, heq⟩
      exact ⟨B, hmem, hint, heq.symm⟩
    · rintro ⟨B, hmem, hint, heq⟩
      exact ⟨B, ⟨hmem, hint⟩, heq.symm⟩
  · intro hids
    have hsub : ((intersecting store nurembergGeom).map Building.id).Nodup :=
      List.Nodup.sublist (List.Sublist.map _ (List.filter_sublist _)) hids
    have hmapeq : ((intersecting store nurembergGeom).map mkFeature).map GeoFeature.prop_id
        = (intersecting store nurembergGeom).map Building.id := by
      rw [List.map_map]
      rfl
    have : (((intersecting store nurembergGeom).map mkFeature).map GeoFeature.prop_id).Nodup := by
      rw [hmapeq]
      exact hsub
    exact List.Nodup.of_map _ this

/-- Witness for C9: the error branch surfaces the exception text as a 500,
and a concrete one-building store yields its feature exactly once. -/
theorem get_buildings_nuremberg_contract_witness :
    get_buildings_nuremberg (.error "db down") = .httpError 500 "db down" ∧
    mkFeature (Building.mk 1 none [nurembergBbox]) ∈
      (nurembergCollection [Building.mk 1 none [nurembergBbox]]).features ∧
    (nurembergCollection [Building.mk 1 none [nurembergBbox]]).features.Nodup := by
  refine ⟨get_buildings_nuremberg_contract.1 "db down", ?_, ?_⟩
  · exact ((get_buildings_nuremberg_contract.2 [Building.mk 1 none [nurembergBbox]]).2.1
      (mkFeature (Building.mk 1 none [nurembergBbox]))).mpr
      ⟨Building.mk 1 none [nurembergBbox], List.mem_singleton.mpr rfl, by decide, rfl⟩
  · exact (get_buildings_nuremberg_contract.2 [Building.mk 1 none [nurembergBbox]]).2.2
      (by decide)

/-- Claim C5: a `POST /retrieve_obj` request whose well-formed polygon
intersects zero stored buildings terminates with the structured
`EmptyRegionError` result — not an internal error (HTTP 500) and not a
successful response carrying a mesh file. -/
theorem retrieve_obj_empty_region (store : List Building) (region : MultiBoxGeom)
    (hv : validRegion region = true) (hempty : intersecting store region = []) :
    retrieve_obj store region = .emptyRegionError ∧
    (∀ m, retrieve_obj store region ≠ .meshFile m) ∧
    (∀ d, retrieve_obj store region ≠ .internalError d) := by
  have h : retrieve_obj store region = .emptyRegionError := by
    unfold retrieve_obj
    rw [hv, hempty]
    simp
  refine ⟨h, fun m hc => ?_, fun d hc => ?_⟩
  · rw [h] at hc
    exact RetrieveObjResult.noConfusion hc
  · rw [h] at hc
    exact RetrieveObjResult.noConfusion hc

/-- Witness for C5: the empty store and a concrete valid region. -/
theorem retrieve_obj_empty_region_witness :
    validRegion [Box.mk 0 1 0 1] = true ∧
    retrieve_obj [] [Box.mk 0 1 0 1] = .emptyRegionError := by
  refine ⟨by decide, ?_⟩
  exact (retrieve_obj_empty_region [] [Box.mk 0 1 0 1] (by decide) rfl).1

/- ### Uniqueness and idempotence of the merge on gml_id -/

theorem hasGmlId_false_iff (t : List FeatureRow) (gid : String) :
    hasGmlId t gid = false ↔ gid ∉ gmlIds t := by
  rw [← Bool.not_eq_true]
  unfold hasGmlId gmlIds
  simp [List.any_eq_true, List.mem_map]

theorem lookupRow_eq_none (t : List FeatureRow) (gid : String)
    (h : hasGmlId t gid = false) : lookupRow t gid = none := by
  unfold lookupRow
  rw [List.find?_eq_none]
  intro r hr hbeq
  exact (hasGmlId_false_iff t gid).mp h
    (List.mem_map.mpr ⟨r, hr, eq_of_beq hbeq⟩)

theorem gmlIds_upsertOne_of_has (t : List FeatureRow) (f : FeatureRow)
    (h : hasGmlId t f.gml_id = true) : gmlIds (upsertOne t f) = gmlIds t := by
  unfold upsertOne
  rw [if_pos h]
  unfold gmlIds
  rw [List.map_map]
  apply List.map_congr_left
  intro r hr
  simp only [Function.comp_apply]
  by_cases hb : (r.gml_id == f.gml_id) = true
  · rw [if_pos hb]
    exact (eq_of_beq hb).symm
  · rw [if_neg hb]

theorem nodup_gmlIds_append_fresh (t : List FeatureRow) (r : FeatureRow)
    (hnd : (gmlIds t).Nodup) (hh : hasGmlId t r.gml_id = false) :
    (gmlIds (t ++ [r])).Nodup := by
  have hnot : r.gml_id ∉ gmlIds t := (hasGmlId_false_iff t r.gml_id).mp hh
  unfold gmlIds at hnd hnot ⊢
  rw [List.map_append]
  simp [List.nodup_append, hnd, hnot]

theorem nodup_gmlIds_upsertOne (t : List FeatureRow) (f : FeatureRow)
    (h : (gmlIds t).Nodup) : (gmlIds (upsertOne t f)).Nodup := by
  by_cases hh : hasGmlId t f.gml_id = true
  · rw [gmlIds_upsertOne_of_has t f hh]
    exact h
  · have hff : hasGmlId t f.gml_id = false := by rwa [Bool.not_eq_true] at hh
    unfold upsertOne
    rw [if_neg hh]
    exact nodup_gmlIds_append_fresh t f h hff

theorem find?_update_other (t : List FeatureRow) (g : FeatureRow) (gid : String)
    (hne : g.gml_id ≠ gid) :
    (t.map (fun r => if r.gml_id == g.gml_id then g else r)).find?
        (fun r => r.gml_id == gid)
      = t.find? (fun r => r.gml_id == gid) := by
  induction t with
  | nil => rfl
  | cons r rest ih =>
    rw [List.map_cons]
    by_cases hb : (r.gml_id == g.gml_id) = true
    · rw [if_pos hb]
      have h1 : (g.gml_id == gid) = false := by simp [hne]
      have h2 : (r.gml_id == gid) = false := by
        simp only [beq_eq_false_iff_ne, ne_eq]
        rw [eq_of_beq hb]
        exact hne
      rw [List.find?_cons, List.find?_cons, h1, h2]
      exact ih
    · rw [if_neg hb]
      cases hgid : (r.gml_id == gid) with
      | true => rw [List.find?_cons, List.find?_cons, hgid]
      | false =>
        rw [List.find?_cons, List.find?_cons, hgid]
        exact ih

theorem find?_update_self (t : List FeatureRow) (f : FeatureRow)
    (h : hasGmlId t f.gml_id = true) :
    (t.map (fun r => if r.gml_id == f.gml_id then f else r)).find?
        (fun r => r.gml_id == f.gml_id)
      = some f := by
  induction t with
  | nil => cases h
  | cons r rest ih =>
    rw [List.map_cons]
    by_cases hb : (r.gml_id == f.gml_id) = true
    · rw [if_pos hb]
      have hself : (f.gml_id == f.gml_id) = true := by simp
      rw [List.find?_cons, hself]
    · rw [if_neg hb]
      have hb' : (r.gml_id == f.gml_id) = false := by rwa [Bool.not_eq_true] at hb
      have hrest : hasGmlId rest f.gml_id = true := by
        unfold hasGmlId at h
        rw [List.any_cons, hb', Bool.false_or] at h
        exact h
      rw [List.find?_cons, hb']
      exact ih hrest

theorem lookupRow_upsertOne_other (t : List FeatureRow) (g : FeatureRow)
    (gid : String) (hne : g.gml_id ≠ gid) :
    lookupRow (upsertOne t g) gid = lookupRow t gid := by
  unfold upsertOne lookupRow
  by_cases hh : hasGmlId t g.gml_id = true
  · rw [if_pos hh]
    exact find?_update_other t g gid hne
  · rw [if_neg hh, List.find?_append]
    have h1 : (g.gml_id == gid) = false := by simp [hne]
    rw [List.find?_cons, h1, List.find?_nil, Option.or_none]

theorem lookupRow_upsertOne_self (t : List FeatureRow) (f : FeatureRow) :
    lookupRow (upsertOne t f) f.gml_id = some f := by
  unfold upsertOne lookupRow
  by_cases hh : hasGmlId t f.gml_id = true
  · rw [if_pos hh]
    exact find?_update_self t f hh
  · rw [if_neg hh, List.find?_append]
    have hff : hasGmlId t f.gml_id = false := by rwa [Bool.not_eq_true] at hh
    have hnone : t.find? (fun r => r.gml_id == f.gml_id) = none :=
      lookupRow_eq_none t f.gml_id hff
    have hself : (f.gml_id == f.gml_id) = true := by simp
    rw [hnone, List.find?_cons, hself]
    rfl

theorem ingestFile_cons (t : List FeatureRow) (g : FeatureRow)
    (rest : List FeatureRow) :
    ingestFile t (g :: rest) = ingestFile (upsertOne t g) rest := rfl

theorem lookupRow_ingestFile_not_mem (file : List FeatureRow) :
    ∀ t gid, gid ∉ gmlIds file →
      lookupRow (ingestFile t file) gid = lookupRow t gid := by
  induction file with
  | nil => intro t gid _; rfl
  | cons g rest ih =>
    intro t gid h
    have hsplit : gid ≠ g.gml_id ∧ gid ∉ gmlIds rest := by
      unfold gmlIds at h ⊢
      rw [List.map_cons, List.mem_cons] at h
      exact ⟨fun he => h (Or.inl he), fun hm => h (Or.inr hm)⟩
    rw [ingestFile_cons, ih (upsertOne t g) gid hsplit.2]
    exact lookupRow_upsertOne_other t g gid (fun he => hsplit.1 he.symm)

theorem lookupRow_ingestFile_mem (file : List FeatureRow) :
    ∀ t f, (gmlIds file).Nodup → f ∈ file →
      lookupRow (ingestFile t file) f.gml_id = some f := by
  induction file with
  | nil => intro t f _ hm; cases hm
  | cons g rest ih =>
    intro t f hnd hmem
    have hnd' : g.gml_id ∉ gmlIds rest ∧ (gmlIds rest).Nodup := by
      unfold gmlIds at hnd ⊢
      rw [List.map_cons, List.nodup_cons] at hnd
      exact hnd
    rw [ingestFile_cons]
    rcases List.mem_cons.mp hmem with he | hm
    · subst he
      rw [lookupRow_ingestFile_not_mem rest (upsertOne t f) f.gml_id hnd'.1]
      exact lookupRow_upsertOne_self t f
    · exact ih (upsertOne t g) f hnd'.2 hm

theorem nodup_gmlIds_ingestFile (file : List FeatureRow) :
    ∀ t, (gmlIds t).Nodup → (gmlIds (ingestFile t file)).Nodup := by
  induction file with
  | nil => intro t h; exact h
  | cons g rest ih =>
    intro t h
    rw [ingestFile_cons]
    exact ih (upsertOne t g) (nodup_gmlIds_upsertOne t g h)

/-- Claim C2: ingesting the same source file twice leaves the Building
table with no duplicate rows for any external id, and afterwards each
affected row equals the latest ingested version of that feature (geometry
and attributes replaced). -/
theorem ingest_same_file_twice (t file : List FeatureRow)
    (ht : (gmlIds t).Nodup) (hfile : (gmlIds file).Nodup) :
    (gmlIds (ingestFile (ingestFile t file) file)).Nodup ∧
    ∀ f ∈ file,
      lookupRow (ingestFile (ingestFile t file) file) f.gml_id = some f := by
  refine ⟨?_, ?_⟩
  · exact nodup_gmlIds_ingestFile file _ (nodup_gmlIds_ingestFile file t ht)
  · intro f hf
    exact lookupRow_ingestFile_mem file _ f hfile hf

/-- Witness for C2: re-ingesting a concrete one-feature file into the
empty store. -/
theorem ingest_same_file_twice_witness :
    (gmlIds ([] : List FeatureRow)).Nodup ∧
    (gmlIds [FeatureRow.mk "DEBY_001" [Box.mk 0 1 0 1] none]).Nodup ∧
    lookupRow
        (ingestFile (ingestFile [] [FeatureRow.mk "DEBY_001" [Box.mk 0 1 0 1] none])
          [FeatureRow.mk "DEBY_001" [Box.mk 0 1 0 1] none])
        "DEBY_001"
      = some (FeatureRow.mk "DEBY_001" [Box.mk 0 1 0 1] none) := by
  refine ⟨List.nodup_nil, by simp [gmlIds], ?_⟩
  exact (ingest_same_file_twice [] [FeatureRow.mk "DEBY_001" [Box.mk 0 1 0 1] none]
      List.nodup_nil (by simp [gmlIds])).2
    (FeatureRow.mk "DEBY_001" [Box.mk 0 1 0 1] none) (List.mem_singleton.mpr rfl)

/- ### The storage-layer unique constraint holds under every op sequence -/

theorem nodup_map_update_fresh (l : List String) (oldId a : String)
    (hnd : l.Nodup) (ha : a ∉ l) :
    (l.map (fun s => if s == oldId then a else s)).Nodup := by
  induction l with
  | nil => exact List.nodup_nil
  | cons x xs ih =>
    rw [List.map_cons]
    have hx_notin : x ∉ xs := (List.nodup_cons.mp hnd).1
    have hnd' : xs.Nodup := (List.nodup_cons.mp hnd).2
    have hane : a ≠ x := fun he => ha (he ▸ List.mem_cons_self x xs)
    have ha' : a ∉ xs := fun hm => ha (List.mem_cons_of_mem x hm)
    by_cases hb : (x == oldId) = true
    · rw [if_pos hb, List.nodup_cons]
      refine ⟨?_, ih hnd' ha'⟩
      intro hmem
      rcases List.mem_map.mp hmem with ⟨s, hs, hfs⟩
      by_cases hsb : (s == oldId) = true
      · exact hx_notin (by rw [eq_of_beq hb, ← eq_of_beq hsb]; exact hs)
      · rw [if_neg hsb] at hfs
        exact ha' (hfs ▸ hs)
    · rw [if_neg hb, List.nodup_cons]
      refine ⟨?_, ih hnd' ha'⟩
      intro hmem
      rcases List.mem_map.mp hmem with ⟨s, hs, hfs⟩
      by_cases hsb : (s == oldId) = true
      · rw [if_pos hsb] at hfs
        exact hane hfs
      · rw [if_neg hsb] at hfs
        exact hx_notin (hfs ▸ hs)

theorem nodup_gmlIds_applyOp (t : List FeatureRow) (op : StoreOp)
    (h : (gmlIds t).Nodup) : (gmlIds (applyOp t op)).Nodup := by
  cases op with
  | insert r =>
    simp only [applyOp]
    by_cases hh : hasGmlId t r.gml_id = true
    · rw [if_pos hh]
      exact h
    · rw [if_neg hh]
      exact nodup_gmlIds_append_fresh t r h (by rwa [Bool.not_eq_true] at hh)
  | updateGeom gid g =>
    simp only [applyOp]
    have heq : gmlIds (t.map fun r =>
        if r.gml_id == gid then { r with geom := g } else r) = gmlIds t := by
      unfold gmlIds
      rw [List.map_map]
      apply List.map_congr_left
      intro r hr
      simp only [Function.comp_apply]
      by_cases hb : (r.gml_id == gid) = true
      · rw [if_pos hb]
      · rw [if_neg hb]
    rw [heq]
    exact h
  | updateId oldId newId =>
    simp only [applyOp]
    by_cases hh : hasGmlId t newId = true
    · rw [if_pos hh]
      exact h
    · rw [if_neg hh]
      have heq : gmlIds (t.map fun r =>
            if r.gml_id == oldId then { r with gml_id := newId } else r)
          = (gmlIds t).map (fun s => if s == oldId then newId else s) := by
        unfold gmlIds
        rw [List.map_map, List.map_map]
        apply List.map_congr_left
        intro r hr
        simp only [Function.comp_apply]
        by_cases hb : (r.gml_id == oldId) = true
        · rw [if_pos hb, if_pos hb]
        · rw [if_neg hb, if_neg hb]
      rw [heq]
      exact nodup_map_update_fresh (gmlIds t) oldId newId h
        ((hasGmlId_false_iff t newId).mp (by rwa [Bool.not_eq_true] at hh))
  | delete gid =>
    simp only [applyOp]
    exact List.Nodup.sublist
      (List.Sublist.map _ (List.filter_sublist t)) h

/-- Claim C3: the uniqueness of the external id `gml_id` is enforced by
the storage-layer unique constraint of `backend/db/index.sql`, so after
every sequence of loader/merge write statements — including buggy ones
that attempt to create duplicates — the `building` table never contains
two rows with the same external id. -/
theorem gml_id_unique_storage_invariant (ops : List StoreOp)
    (t : List FeatureRow) (ht : (gmlIds t).Nodup) :
    (gmlIds (applyOps t ops)).Nodup := by
  induction ops generalizing t with
  | nil => exact ht
  | cons op rest ih => exact ih (applyOp t op) (nodup_gmlIds_applyOp t op ht)

/-- Witness for C3: a buggy sequence that inserts the same external id
twice still leaves the table duplicate-free. -/
theorem gml_id_unique_storage_invariant_witness :
    (gmlIds (applyOps []
      [StoreOp.insert (FeatureRow.mk "DEBY_007" [] none),
       StoreOp.insert (FeatureRow.mk "DEBY_007" [Box.mk 0 1 0 1] none)])).Nodup :=
  gml_id_unique_storage_invariant _ [] List.nodup_nil

/-- Witness for C1: a concrete store, a concrete valid polygon, and a
building that overlaps it. -/
theorem intersecting_mem_iff_sharesPoint_witness :
    geomValid [Box.mk 0 2 0 2] ∧
    geomValid (Building.mk 7 none [Box.mk 1 3 1 3]).geom ∧
    Building.mk 7 none [Box.mk 1 3 1 3] ∈ [Building.mk 7 none [Box.mk 1 3 1 3]] ∧
    (Building.mk 7 none [Box.mk 1 3 1 3] ∈
        intersecting [Building.mk 7 none [Box.mk 1 3 1 3]] [Box.mk 0 2 0 2] ↔
      sharesPoint (Building.mk 7 none [Box.mk 1 3 1 3]).geom [Box.mk 0 2 0 2]) := by
  refine ⟨by decide, by decide, List.mem_singleton.mpr rfl, ?_⟩
  exact intersecting_mem_iff_sharesPoint _ _ _ (by decide) (by decide)
    (List.mem_singleton.mpr rfl)

/- ### What the building table's storage layer does and does not enforce -/

/-- Counterexample to claim C4: the concrete row `bowtieRow` passes the
declared `geometry(Polygon, 4326) NOT NULL` checks of init.sql and is
persisted, yet its geometry is neither a topologically valid 3D
multi-polygon nor null — the declared column is a non-null 2D Polygon and
no write-time check enforces topological validity. -/
theorem building_geom_validOrNull_counterexample :
    bowtieRow ∈ insertBuildingRows [] [bowtieRow] ∧ ¬ validOrNull bowtieRow.geom := by
  constructor
  · show bowtieRow ∈ insertBuildingRow [] bowtieRow
    rw [insertBuildingRow, if_pos (by decide)]
    exact List.mem_singleton.mpr rfl
  · rintro (hnone | ⟨polys, heq, hval⟩)
    · simp [bowtieRow] at hnone
    · simp [bowtieRow] at heq

/-- Claim C4 amended: after every sequence of writes accepted by the
storage layer of init.sql, every persisted row's geometry is a non-null
2D Polygon with SRID 4326 — the declared geometry type, SRID and
non-nullness are enforced at the storage layer, but neither 3D
multi-polygon representation nor topological validity is. -/
theorem building_geom_typmod_invariant (rs t : List BuildingRow)
    (ht : ∀ r ∈ t, ∃ shell, r.geom = some (SqlGeometry.polygon2D 4326 shell)) :
    ∀ r ∈ insertBuildingRows t rs,
      ∃ shell, r.geom = some (SqlGeometry.polygon2D 4326 shell) := by
  induction rs generalizing t with
  | nil => exact ht
  | cons r0 rest ih =>
    apply ih
    intro r hr
    unfold insertBuildingRow at hr
    by_cases hok : geomTypmodOk r0.geom = true
    · rw [if_pos hok] at hr
      rcases List.mem_append.mp hr with hmem | hmem
      · exact ht r hmem
      · rw [List.mem_singleton] at hmem
        subst hmem
      -- the accepted row must be a SRID-4326 2D polygon
        cases hg : r.geom with
        | none =>
          rw [hg] at hok
          simp [geomTypmodOk] at hok
        | some g =>
          cases g with
          | polygon2D srid shell =>
            rw [hg] at hok
            simp only [geomTypmodOk, beq_iff_eq] at hok
            exact ⟨shell, by rw [hok]⟩
          | multiPolygonZ srid polys =>
            rw [hg] at hok
            simp [geomTypmodOk] at hok
    · rw [if_neg hok] at hr
      exact ht r hr

/-- Witness for the amended C4: the persisted bowtie row is a non-null
SRID-4326 2D Polygon. -/
theorem building_geom_typmod_invariant_witness :
    ∃ shell, bowtieRow.geom = some (SqlGeometry.polygon2D 4326 shell) :=
  building_geom_typmod_invariant [bowtieRow] []
    (fun r hr => absurd hr (List.not_mem_nil r))
    bowtieRow (by decide)

/- ### Fetcher retry policy -/

theorem fetchAux_netFail_zero (oracle : Nat → AttemptOutcome) (hl i d : Nat)
    (h : oracle i = AttemptOutcome.netFail) :
    fetchAux oracle 0 hl i d = (FetchResult.transportError, d + 1) := by
  rw [fetchAux.eq_def, h]

theorem fetchAux_netFail_succ (oracle : Nat → AttemptOutcome) (n hl i d : Nat)
    (h : oracle i = AttemptOutcome.netFail) :
    fetchAux oracle (n + 1) hl i d = fetchAux oracle n hl (i + 1) (d + 1) := by
  rw [fetchAux.eq_def, h]

theorem fetchAux_badHash_zero (oracle : Nat → AttemptOutcome) (nl i d : Nat)
    (h : oracle i = AttemptOutcome.badHash) :
    fetchAux oracle nl 0 i d = (FetchResult.integrityError, d + 1) := by
  rw [fetchAux.eq_def, h]

theorem fetchAux_badHash_succ (oracle : Nat → AttemptOutcome) (nl m i d : Nat)
    (h : oracle i = AttemptOutcome.badHash) :
    fetchAux oracle nl (m + 1) i d = fetchAux oracle nl m (i + 1) (d + 1) := by
  rw [fetchAux.eq_def, h]

theorem fetchAux_all_netFail (oracle : Nat → AttemptOutcome)
    (h : ∀ i, oracle i = AttemptOutcome.netFail) :
    ∀ n hl i d, fetchAux oracle n hl i d
      = (FetchResult.transportError, d + n + 1) := by
  intro n
  induction n with
  | zero =>
    intro hl i d
    rw [fetchAux_netFail_zero oracle hl i d (h i)]
  | succ m ihm =>
    intro hl i d
    rw [fetchAux_netFail_succ oracle m hl i d (h i), ihm hl (i + 1) (d + 1)]
    have harith : d + 1 + m + 1 = d + (m + 1) + 1 := by omega
    rw [harith]

theorem fetchAux_all_badHash (oracle : Nat → AttemptOutcome)
    (h : ∀ i, oracle i = AttemptOutcome.badHash) :
    ∀ nl i d, fetchAux oracle nl 1 i d = (FetchResult.integrityError, d + 2) := by
  intro nl i d
  rw [fetchAux_badHash_succ oracle nl 0 i d (h i),
    fetchAux_badHash_zero oracle nl (i + 1) (d + 1) (h (i + 1))]

/-- Claim C6: a descriptor whose downloaded bytes always fail hash
verification gets exactly one re-download (two downloads in total) and
then fails with `IntegrityError`; a persistently failing network gets the
configured maximum number of attempts and then `TransportError`. -/
theorem fetcher_retry_policy (oracle : Nat → AttemptOutcome)
    (maxAttempts : Nat) (hmax : 1 ≤ maxAttempts) :
    ((∀ i, oracle i = AttemptOutcome.badHash) →
      fetchDescriptor oracle maxAttempts = (FetchResult.integrityError, 2)) ∧
    ((∀ i, oracle i = AttemptOutcome.netFail) →
      fetchDescriptor oracle maxAttempts
        = (FetchResult.transportError, maxAttempts)) := by
  constructor
  · intro hb
    unfold fetchDescriptor
    rw [fetchAux_all_badHash oracle hb (maxAttempts - 1) 0 0]
  · intro hn
    unfold fetchDescriptor
    rw [fetchAux_all_netFail oracle hn (maxAttempts - 1) 1 0 0]
    have harith : 0 + (maxAttempts - 1) + 1 = maxAttempts := by omega
    rw [harith]

/-- Witness for C6: with three configured attempts, a persistent hash
mismatch gives IntegrityError after two downloads, and a persistent
network failure gives TransportError after three. -/
theorem fetcher_retry_policy_witness :
    fetchDescriptor (fun _ => AttemptOutcome.badHash) 3
      = (FetchResult.integrityError, 2) ∧
    fetchDescriptor (fun _ => AttemptOutcome.netFail) 3
      = (FetchResult.transportError, 3) :=
  ⟨(fetcher_retry_policy (fun _ => AttemptOutcome.badHash) 3 (by decide)).1
      (fun _ => rfl),
   (fetcher_retry_policy (fun _ => AttemptOutcome.netFail) 3 (by decide)).2
      (fun _ => rfl)⟩

/- ### Normalizer skip-and-count -/

theorem normalizeFold_features (repairFn : RawFeature → Option FeatureRow)
    (file : List RawFeature) :
    ∀ acc, (file.foldl (normalizeStep repairFn) acc).features
      = acc.features ++ file.filterMap repairFn := by
  induction file with
  | nil => intro acc; simp
  | cons rf rest ih =>
    intro acc
    rw [List.foldl_cons, ih]
    cases hrf : repairFn rf with
    | some f => simp [normalizeStep, hrf, List.filterMap_cons]
    | none => simp [normalizeStep, hrf, List.filterMap_cons]

theorem normalizeFold_skipped (repairFn : RawFeature → Option FeatureRow)
    (file : List RawFeature) :
    ∀ acc, (file.foldl (normalizeStep repairFn) acc).skippedCount
      = acc.skippedCount
        + (file.filter (fun rf => (repairFn rf).isNone)).length := by
  induction file with
  | nil => intro acc; simp
  | cons rf rest ih =>
    intro acc
    rw [List.foldl_cons, ih]
    cases hrf : repairFn rf with
    | some f =>
      simp [normalizeStep, hrf, List.filter_cons]
    | none =>
      simp [normalizeStep, hrf, List.filter_cons]
      omega

/-- Claim C7: normalization of a source file keeps every repairable
feature and counts (rather than aborts on) every unrepairable one: the
per-file result's features are exactly the repairable features, its skip
count is the number of unrepairable ones, and in particular every
repairable feature ends up in the result no matter how many other
features failed repair. -/
theorem normalizer_skips_and_counts (repairFn : RawFeature → Option FeatureRow)
    (file : List RawFeature) :
    (normalizeFile repairFn file).features = file.filterMap repairFn ∧
    (normalizeFile repairFn file).skippedCount
      = (file.filter (fun rf => (repairFn rf).isNone)).length ∧
    ∀ rf ∈ file, ∀ f, repairFn rf = some f →
      f ∈ (normalizeFile repairFn file).features := by
  have hf : (normalizeFile repairFn file).features = file.filterMap repairFn := by
    unfold normalizeFile
    rw [normalizeFold_features]
    rfl
  refine ⟨hf, ?_, ?_⟩
  · unfold normalizeFile
    rw [normalizeFold_skipped]
    simp
  · intro rf hrf f hrepair
    rw [hf]
    exact List.mem_filterMap.mpr ⟨rf, hrf, hrepair⟩

/-- Witness for C7: a file with one repairable and one unrepairable
feature yields the repaired feature and a skip count of one. -/
theorem normalizer_skips_and_counts_witness :
    FeatureRow.mk "ok" [] none ∈
      (normalizeFile
        (fun rf => if rf.ext_id == "bad" then none
          else some (FeatureRow.mk rf.ext_id rf.rawGeom rf.attrs))
        [RawFeature.mk "bad" [] none, RawFeature.mk "ok" [] none]).features ∧
    (normalizeFile
        (fun rf => if rf.ext_id == "bad" then none
          else some (FeatureRow.mk rf.ext_id rf.rawGeom rf.attrs))
        [RawFeature.mk "bad" [] none, RawFeature.mk "ok" [] none]).skippedCount
      = 1 := by
  constructor
  · exact (normalizer_skips_and_counts
        (fun rf => if rf.ext_id == "bad" then none
          else some (FeatureRow.mk rf.ext_id rf.rawGeom rf.attrs))
        [RawFeature.mk "bad" [] none, RawFeature.mk "ok" [] none]).2.2
      (RawFeature.mk "ok" [] none) (by simp)
      (FeatureRow.mk "ok" [] none) (by simp)
  · rw [(normalizer_skips_and_counts
        (fun rf => if rf.ext_id == "bad" then none
          else some (FeatureRow.mk rf.ext_id rf.rawGeom rf.attrs))
        [RawFeature.mk "bad" [] none, RawFeature.mk "ok" [] none]).2.1]
    rfl

/- ### Tile builder bounding volumes -/

theorem enclosesB_refl (v : Box3) : enclosesB v v = true := by
  simp [enclosesB]

theorem enclosesB_union_right (a b : Box3) :
    enclosesB (Box3.union a b) b = true := by
  simp [enclosesB, Box3.union]

theorem enclosesB_union_mono (a b c : Box3) (h : enclosesB a c = true) :
    enclosesB (Box3.union a b) c = true := by
  simp only [enclosesB, Box3.union, decide_eq_true_eq] at h ⊢
  exact ⟨le_trans (min_le_left _ _) h.1,
         le_trans h.2.1 (le_max_left _ _),
         le_trans (min_le_left _ _) h.2.2.1,
         le_trans h.2.2.2.1 (le_max_left _ _),
         le_trans (min_le_left _ _) h.2.2.2.2.1,
         le_trans h.2.2.2.2.2 (le_max_left _ _)⟩

theorem foldl_union_encloses (bs : List Box3) :
    ∀ a c, enclosesB a c = true →
      enclosesB (bs.foldl Box3.union a) c = true := by
  induction bs with
  | nil => intro a c h; exact h
  | cons b rest ih =>
    intro a c h
    rw [List.foldl_cons]
    exact ih (Box3.union a b) c (enclosesB_union_mono a b c h)

theorem foldl_union_encloses_mem (xs : List Box3) :
    ∀ a b, b ∈ xs → enclosesB (xs.foldl Box3.union a) b = true := by
  induction xs with
  | nil => intro a b h; cases h
  | cons x rest ih =>
    intro a b h
    rw [List.foldl_cons]
    rcases List.mem_cons.mp h with he | hm
    · subst he
      exact foldl_union_encloses rest (Box3.union a b) b
        (enclosesB_union_right a b)
    · exact ih (Box3.union a x) b hm

theorem unionAll_encloses (l : List Box3) :
    ∀ b ∈ l, enclosesB (unionAll l) b = true := by
  intro b hb
  cases l with
  | nil => cases hb
  | cons x xs =>
    simp only [unionAll]
    rcases List.mem_cons.mp hb with he | hm
    · subst he
      exact foldl_union_encloses xs b b (enclosesB_refl b)
    · exact foldl_union_encloses_mem xs x b hm

theorem goodChildren_of_all (v : Box3) (ts : List TileNode)
    (h : ∀ t ∈ ts, enclosesB v t.volume = true ∧ goodNode t = true) :
    goodChildren v ts = true := by
  induction ts with
  | nil => rfl
  | cons t rest ih =>
    have ht := h t (List.mem_cons_self t rest)
    simp only [goodChildren]
    rw [ht.1, ht.2, ih (fun s hs => h s (List.mem_cons_of_mem t hs))]
    rfl

/-- Claim C8: in every tileset produced by a Tile Builder pipeline run,
every node's bounding volume fully encloses the bounding volumes of all
of its children (recursively over the whole built tree) and the extent of
the node's own content. -/
theorem tileset_bounding_volume_invariant (batches : List (List Point3)) :
    goodNode (buildTileset batches) = true := by
  simp only [buildTileset, goodNode]
  rw [Bool.true_and]
  apply goodChildren_of_all
  intro t ht
  rcases List.mem_map.mp ht with ⟨batch, hbatch, hleaf⟩
  subst hleaf
  constructor
  · exact unionAll_encloses _ _
      (List.mem_map.mpr ⟨batch, hbatch, rfl⟩)
  · simp only [buildLeafNode, goodNode]
    rw [enclosesB_refl]
    rfl

/- ### FloatingPanel pricing -/

/-- `priceThreshold` is exactly the literal `0.05` of
`frontend/src/FloatingPanel.tsx`. -/
theorem priceThreshold_eq : priceThreshold = 0.05 := by
  rw [priceThreshold, Rat.mkRat_eq_div]
  norm_num

/-- Claim C10: for every non-null drawn polygon area `a` (km²), the
computed price is 0 when `a < 0.05` and `20 * a` euros otherwise, and
whenever the computed price is 0 the checkout form is replaced by the
free-download button, so no payment is requested. -/
theorem floating_panel_pricing (a prev : ℚ) :
    (a < priceThreshold → computePrice (some a) prev = 0) ∧
    (¬ a < priceThreshold → computePrice (some a) prev = 20 * a) ∧
    (computePrice (some a) prev = 0 →
      renderCheckout (computePrice (some a) prev)
        = CheckoutView.freeDownloadButton) := by
  refine ⟨?_, ?_, ?_⟩
  · intro h
    simp [computePrice, h]
  · intro h
    simp [computePrice, h]
  · intro h
    rw [h]
    simp [renderCheckout]

/-- Witness for C10: a 0.01 km² area is free and gets the free-download
button; a 2 km² area costs 40 euros. -/
theorem floating_panel_pricing_witness :
    computePrice (some (mkRat 1 100)) 37 = 0 ∧
    renderCheckout (computePrice (some (mkRat 1 100)) 37)
      = CheckoutView.freeDownloadButton ∧
    computePrice (some 2) 0 = 20 * 2 := by
  refine ⟨?_, ?_, ?_⟩
  · exact (floating_panel_pricing (mkRat 1 100) 37).1 (by decide)
  · exact (floating_panel_pricing (mkRat 1 100) 37).2.2
      ((floating_panel_pricing (mkRat 1 100) 37).1 (by decide))
  · exact (floating_panel_pricing 2 0).2.1 (by decide)

end EasyOpenData
